import Mathlib

/-!
Verification of the resolution pipeline of `rusty-open`, an `xdg-open`
replacement.  The development shallowly embeds the pipeline components of
the source (`src/main.rs`, `src/xdg_desktop_file.rs`, `src/generic_xdg.rs`,
`src/qt_xdg.rs`):

* the Environment Query Adapter (MIME-type query and default-application
  query, routed per desktop environment, with the shared output
  normalization rule),
* the desktop-entry file parser (two-state line scanner),
* the Exec-string tokenizer (a model of the external `shlex` crate's
  `split`, as used by `args_from_exec_string`) with field-code
  substitution, and
* the resolution orchestrator `open` (modelled as `openRes`).

External effects (URL parsing by the `url` crate, subprocess standard
output, the filesystem, the user data directory) are supplied through an
environment record `Env` of oracles, and `openRes` additionally records a
trace of the MIME queries issued, the filesystem paths read and the Exec
strings tokenized, so that claims of the form "query X is (not) performed"
are statable.  OS strings are modelled as `String` (the pipeline's
interesting behaviour is on valid Unicode arguments), subprocess output as
a list of bytes (`List Nat`), and `std::io::Error` as its display text.
-/

/-- Result of a successful `Url::parse` (external `url` crate), as consumed
by `open` in `src/main.rs`: the (normalized) scheme and the path component. -/
structure UrlParts where
  scheme : String
  path : String
deriving DecidableEq

/-- Desktop environment identity (external `detect_desktop_environment`
crate).  The source distinguishes only the LXQt variant for query routing;
the remaining variants are represented by a few stand-ins since only
`Lxqt` affects pipeline behaviour. -/
inductive DesktopEnvironment where
  | Lxqt
  | Gnome
  | Kde
  | Xfce
deriving DecidableEq

/-- `enum XdgQueryError` of `src/main.rs`.  The `InvalidUtf8` payload
(`Utf8Error`, naming the offending byte position) is dropped as no claim
depends on it. -/
inductive XdgQueryError where
  | InvalidUtf8
  | Empty
deriving DecidableEq

/-- Is `b` a UTF-8 continuation byte? -/
def isUtf8Cont (b : Nat) : Bool := 0x80 ≤ b && b < 0xC0

/-- UTF-8 decoding of a byte sequence into a character list, validating
shortest forms, surrogates and the code-point ceiling: a model of Rust's
`std::str::from_utf8` validation (returns `none` exactly on invalid
UTF-8). -/
def utf8DecodeAux : List Nat → Option (List Char)
  | [] => some []
  | b :: rest =>
    if b < 0x80 then
      match utf8DecodeAux rest with
      | some cs => some (Char.ofNat b :: cs)
      | none => none
    else if b < 0xC0 then
      none
    else if b < 0xE0 then
      match rest with
      | b2 :: rest2 =>
        if isUtf8Cont b2 then
          let cp := (b - 0xC0) * 0x40 + (b2 - 0x80)
          if cp < 0x80 then none
          else
            match utf8DecodeAux rest2 with
            | some cs => some (Char.ofNat cp :: cs)
            | none => none
        else none
      | _ => none
    else if b < 0xF0 then
      match rest with
      | b2 :: b3 :: rest2 =>
        if isUtf8Cont b2 && isUtf8Cont b3 then
          let cp := (b - 0xE0) * 0x1000 + (b2 - 0x80) * 0x40 + (b3 - 0x80)
          if cp < 0x800 then none
          else if 0xD800 ≤ cp && cp ≤ 0xDFFF then none
          else
            match utf8DecodeAux rest2 with
            | some cs => some (Char.ofNat cp :: cs)
            | none => none
        else none
      | _ => none
    else if b < 0xF8 then
      match rest with
      | b2 :: b3 :: b4 :: rest2 =>
        if isUtf8Cont b2 && isUtf8Cont b3 && isUtf8Cont b4 then
          let cp := (b - 0xF0) * 0x40000 + (b2 - 0x80) * 0x1000
                      + (b3 - 0x80) * 0x40 + (b4 - 0x80)
          if cp < 0x10000 then none
          else if 0x10FFFF < cp then none
          else
            match utf8DecodeAux rest2 with
            | some cs => some (Char.ofNat cp :: cs)
            | none => none
        else none
      | _ => none
    else none

/-- `std::str::from_utf8` as used by both query backends. -/
def utf8Decode (l : List Nat) : Option String :=
  (utf8DecodeAux l).map fun cs => String.mk cs

/-- UTF-8 bytes of an ASCII string (used to build concrete subprocess
outputs in witnesses). -/
def strBytes (s : String) : List Nat := s.data.map Char.toNat

/-- Rust's `char::is_whitespace`: the Unicode `White_Space` property. -/
def isRustWs (c : Char) : Bool :=
  (0x09 ≤ c.toNat && c.toNat ≤ 0x0D) || c.toNat = 0x20 || c.toNat = 0x85 ||
  c.toNat = 0xA0 || c.toNat = 0x1680 || (0x2000 ≤ c.toNat && c.toNat ≤ 0x200A) ||
  c.toNat = 0x2028 || c.toNat = 0x2029 || c.toNat = 0x202F || c.toNat = 0x205F ||
  c.toNat = 0x3000

/-- Rust's `str::trim`: strip leading and trailing whitespace. -/
def rustTrim (s : String) : String :=
  String.mk (((s.data.dropWhile isRustWs).reverse.dropWhile isRustWs).reverse)

/-- Rust's `str::starts_with` for a string pattern. -/
def rustStartsWith (s pre : String) : Bool := pre.data.isPrefixOf s.data

/-- Rust's `str::ends_with` for a string pattern. -/
def rustEndsWith (s suf : String) : Bool := suf.data.isSuffixOf s.data

/-- The environment of external effects the pipeline consults.  Each
subprocess oracle maps the command's argument to the raw bytes the
subprocess wrote on standard output; `fs` maps a path to the file's
contents or an I/O error (`std::fs::read_to_string`); `dataDir` is
`dirs::data_dir()` (assumed present: its absence panics in the source
before any claim-relevant behaviour); `urlParse` is `Url::parse`. -/
structure Env where
  urlParse : String → Option UrlParts
  qtMimeOut : String → List Nat
  qtDefaultOut : String → List Nat
  xdgMimeOut : String → List Nat
  xdgDefaultOut : String → List Nat
  fs : String → Except String String
  dataDir : String

/-- `generic_xdg::query_mime_xdg` (`src/generic_xdg.rs`): run
`xdg-mime query filetype <arg>` and normalize its standard output. -/
def query_mime_xdg (env : Env) (arg : String) : Except XdgQueryError String :=
  match utf8Decode (env.xdgMimeOut arg) with
  | some s =>
    let trimmed := rustTrim s
    if trimmed = "" then .error .Empty else .ok trimmed
  | none => .error .InvalidUtf8

/-- `generic_xdg::query_default` (`src/generic_xdg.rs`): run
`xdg-mime query default <mime>` and normalize its standard output. -/
def gen_query_default (env : Env) (mime : String) : Except XdgQueryError String :=
  match utf8Decode (env.xdgDefaultOut mime) with
  | some s =>
    let trimmed := rustTrim s
    if trimmed = "" then .error .Empty else .ok trimmed
  | none => .error .InvalidUtf8

/-- `qt_xdg::query_mime` (`src/qt_xdg.rs`): run `qtxdg-mat mimetype <arg>`
and normalize its standard output. -/
def qt_query_mime (env : Env) (arg : String) : Except XdgQueryError String :=
  match utf8Decode (env.qtMimeOut arg) with
  | some s =>
    let trimmed := rustTrim s
    if trimmed = "" then .error .Empty else .ok trimmed
  | none => .error .InvalidUtf8

/-- `qt_xdg::query_default` (`src/qt_xdg.rs`): run `qtxdg-mat defapp <mime>`
and normalize its standard output. -/
def qt_query_default (env : Env) (mime : String) : Except XdgQueryError String :=
  match utf8Decode (env.qtDefaultOut mime) with
  | some s =>
    let trimmed := rustTrim s
    if trimmed = "" then .error .Empty else .ok trimmed
  | none => .error .InvalidUtf8

/-- `QueryExt::query_mime` for `Option<DesktopEnvironment>` (`src/main.rs`):
LXQt routes to the Qt backend, every other identity (including `None`) to
the generic XDG backend. -/
def queryMime (de : Option DesktopEnvironment) (env : Env) (arg : String) :
    Except XdgQueryError String :=
  match de with
  | some .Lxqt => qt_query_mime env arg
  | _ => query_mime_xdg env arg

/-- `QueryExt::query_default` for `Option<DesktopEnvironment>`
(`src/main.rs`), routed like `queryMime`. -/
def queryDefault (de : Option DesktopEnvironment) (env : Env) (mime : String) :
    Except XdgQueryError String :=
  match de with
  | some .Lxqt => qt_query_default env mime
  | _ => gen_query_default env mime

/-- Lexer mode of the `shlex` word scanner: between words (`delim`), inside
a `#` comment, inside an unquoted word, after a backslash in an unquoted
word, inside single quotes, inside double quotes, or after a backslash
inside double quotes. -/
inductive LexMode where
  | delim
  | comment
  | word
  | wordEsc
  | single
  | double
  | doubleEsc
deriving DecidableEq

/-- Whitespace splitting words in `shlex` (space, tab, newline only). -/
def isLexWs (c : Char) : Bool := c = ' ' || c = '\t' || c = '\n'

/-- One-pass model of the `shlex` crate's lexer (the external crate backing
`shlex::split` in `src/xdg_desktop_file.rs`), as a character state machine:
`#` starts a comment only at a word boundary; a backslash escapes the next
character (backslash-newline producing nothing); single quotes are literal
up to the closing quote; inside double quotes a backslash escapes only
dollar, backquote, double quote and backslash (and elides a newline),
otherwise passing both characters through.  End of input inside a quote or
after a backslash is a lexing error (`none`). -/
def shlexRun : LexMode → List Char → List Char → List String → Option (List String)
  | .delim, _, [], toks => some toks
  | .delim, acc, c :: rest, toks =>
    if isLexWs c then shlexRun .delim acc rest toks
    else if c = '#' then shlexRun .comment acc rest toks
    else if c = '"' then shlexRun .double [] rest toks
    else if c = '\'' then shlexRun .single [] rest toks
    else if c = '\\' then shlexRun .wordEsc [] rest toks
    else shlexRun .word [c] rest toks
  | .comment, _, [], toks => some toks
  | .comment, acc, c :: rest, toks =>
    if c = '\n' then shlexRun .delim acc rest toks
    else shlexRun .comment acc rest toks
  | .word, acc, [], toks => some (toks ++ [String.mk acc])
  | .word, acc, c :: rest, toks =>
    if isLexWs c then shlexRun .delim [] rest (toks ++ [String.mk acc])
    else if c = '"' then shlexRun .double acc rest toks
    else if c = '\'' then shlexRun .single acc rest toks
    else if c = '\\' then shlexRun .wordEsc acc rest toks
    else shlexRun .word (acc ++ [c]) rest toks
  | .wordEsc, _, [], _ => none
  | .wordEsc, acc, c :: rest, toks =>
    if c = '\n' then shlexRun .word acc rest toks
    else shlexRun .word (acc ++ [c]) rest toks
  | .single, _, [], _ => none
  | .single, acc, c :: rest, toks =>
    if c = '\'' then shlexRun .word acc rest toks
    else shlexRun .single (acc ++ [c]) rest toks
  | .double, _, [], _ => none
  | .double, acc, c :: rest, toks =>
    if c = '"' then shlexRun .word acc rest toks
    else if c = '\\' then shlexRun .doubleEsc acc rest toks
    else shlexRun .double (acc ++ [c]) rest toks
  | .doubleEsc, _, [], _ => none
  | .doubleEsc, acc, c :: rest, toks =>
    if c = '$' || c = Char.ofNat 96 || c = '"' || c = '\\' then
      shlexRun .double (acc ++ [c]) rest toks
    else if c = '\n' then shlexRun .double acc rest toks
    else shlexRun .double (acc ++ ['\\', c]) rest toks

/-- `shlex::split`: tokenize, `none` on a lexing error. -/
def shlexSplit (s : String) : Option (List String) :=
  shlexRun .delim [] s.data []

/-- The field-code substitution applied to each argument token in
`args_from_exec_string`: a token that is exactly `%U`, `%u` or `%f` is
replaced verbatim by the resource reference. -/
def fieldCodeSubst (arg : String) (tok : String) : String :=
  if tok = "%U" || tok = "%u" || tok = "%f" then arg else tok

/-- `args_from_exec_string` (`src/xdg_desktop_file.rs`): split the Exec
value with `shlex::split`; `none` if splitting fails or yields no tokens;
otherwise the first token is the executable and the rest, after field-code
substitution, the arguments. -/
def args_from_exec_string (exec : String) (arg : String) :
    Option (String × List String) :=
  match shlexSplit exec with
  | none => none
  | some [] => none
  | some (e :: toks) => some (e, toks.map (fieldCodeSubst arg))

/-- Split a character list at the first `=`, as in Rust's
`str::split_once('=')`: `none` when no `=` occurs. -/
def splitAtFirstEq : List Char → Option (List Char × List Char)
  | [] => none
  | c :: rest =>
    if c = '=' then some ([], rest)
    else
      match splitAtFirstEq rest with
      | some (a, b) => some (c :: a, b)
      | none => none

/-- Rust's `str::split_once('=')` on strings. -/
def splitOnceEq (s : String) : Option (String × String) :=
  (splitAtFirstEq s.data).map fun p => (String.mk p.1, String.mk p.2)

/-- Drop one trailing carriage return, as Rust's `lines` does on a line
terminated by a newline. -/
def dropTrailingCr (l : List Char) : List Char :=
  match l.getLast? with
  | some c => if c = '\r' then l.dropLast else l
  | none => l

/-- Helper for `rustLines`: scan characters, emitting a line at each
newline (stripping one trailing carriage return there); at end of input a
nonempty residue is emitted as a final line with no stripping. -/
def rustLinesAux (acc : List Char) : List Char → List String
  | [] => if acc = [] then [] else [String.mk acc]
  | c :: rest =>
    if c = '\n' then String.mk (dropTrailingCr acc) :: rustLinesAux [] rest
    else rustLinesAux (acc ++ [c]) rest

/-- Rust's `str::lines`: split at `\n` or `\r\n`, the final line ending
optional. -/
def rustLines (s : String) : List String := rustLinesAux [] s.data

/-- The desktop map: `HashMap<String, String>` modelled as an association
list with the most recent insertion in front; only `insert` and `get` are
used by the source, and `mapGet?` returns the most recently inserted
binding, matching the hash map's overwrite-on-insert. -/
def mapInsert (m : List (String × String)) (k v : String) :
    List (String × String) :=
  (k, v) :: m

/-- `HashMap::get` on the association-list model: value of the most
recently inserted binding for `k`. -/
def mapGet? (m : List (String × String)) (k : String) : Option String :=
  match m with
  | [] => none
  | p :: rest => if p.1 = k then some p.2 else mapGet? rest k

/-- `enum ParseStatus` of `src/xdg_desktop_file.rs`. -/
inductive ParseStatus where
  | Init
  | DesktopEntry
deriving DecidableEq

/-- The line loop of `parse_desktop_file` (`src/xdg_desktop_file.rs`): in
`Init`, look for the line trimming to `[Desktop Entry]`; in
`DesktopEntry`, stop at a line whose trimmed form starts with `[`,
otherwise insert the trimmed sides of the first `=`-split (lines with no
`=` are skipped). -/
def parse_desktop_lines : List String → ParseStatus → List (String × String) →
    List (String × String)
  | [], _, map => map
  | line :: rest, .Init, map =>
    if rustTrim line = "[Desktop Entry]" then
      parse_desktop_lines rest .DesktopEntry map
    else
      parse_desktop_lines rest .Init map
  | line :: rest, .DesktopEntry, map =>
    if rustStartsWith (rustTrim line) "[" then map
    else
      match splitOnceEq line with
      | some (k, v) =>
        parse_desktop_lines rest .DesktopEntry (mapInsert map (rustTrim k) (rustTrim v))
      | none => parse_desktop_lines rest .DesktopEntry map

/-- The pure part of `parse_desktop_file`: run the line scanner over the
file contents. -/
def parse_desktop_content (raw : String) : List (String × String) :=
  parse_desktop_lines (rustLines raw) .Init []

/-- `parse_desktop_file` (`src/xdg_desktop_file.rs`): read the file at
`path` through the filesystem oracle, then scan its lines. -/
def parse_desktop_file (env : Env) (path : String) :
    Except String (List (String × String)) :=
  match env.fs path with
  | .ok raw => .ok (parse_desktop_content raw)
  | .error e => .error e

/-- Rust's `Path::join` on string paths: an absolute right operand
replaces the left, otherwise the components are joined with a single
separator. -/
def pathJoin (a b : String) : String :=
  if rustStartsWith b "/" then b
  else if a = "" then b
  else if rustEndsWith a "/" then a ++ b
  else a ++ "/" ++ b

/-- `enum Status` of `src/main.rs` (the resolution outcome).  `NoArgs` and
`ExecError` belong to the presentation layer and never arise from `open`;
`DesktopFileParseError` carries the I/O error text, `PromptExec` the full
ready-to-run context. -/
inductive Status where
  | NoArgs
  | XdgQueryError (arg : String) (err : XdgQueryError)
  | DesktopFileParseError (e : String)
  | InvalidExecString (s : String)
  | CouldntDetermineDefault (arg : String) (mime : String)
  | PromptExec (arg : String) (de : Option DesktopEnvironment) (mime : String)
      (appfilePath : String) (toExec : String) (args : List String)
  | ExecError (e : String)
deriving DecidableEq

/-- Result of the instrumented orchestrator: the terminal `Status`
together with the trace of arguments passed to the MIME query, the
filesystem paths read, and the Exec strings handed to the tokenizer. -/
structure OpenOut where
  status : Status
  mimeQueries : List String
  fsReads : List String
  tokenizations : List String
deriving DecidableEq

/-- Entry-resolution tail of `open`: the `Exec` lookup in the located
desktop map.  With an `Exec` value, tokenize it: success yields
`PromptExec` with the parsed executable and arguments, failure
`InvalidExecString`; with no `Exec` key, the handler id itself is the
executable and the raw argument its sole argument. -/
def openWithMap (env : Env) (de : Option DesktopEnvironment)
    (arg mime dflt appfile : String) (map : List (String × String))
    (mq fsr : List String) : OpenOut :=
  match mapGet? map "Exec" with
  | some exec =>
    match args_from_exec_string exec arg with
    | some tup => ⟨.PromptExec arg de mime appfile tup.1 tup.2, mq, fsr, [exec]⟩
    | none => ⟨.InvalidExecString exec, mq, fsr, [exec]⟩
  | none => ⟨.PromptExec arg de mime appfile dflt [arg], mq, fsr, []⟩

/-- Entry resolution of `open`: a handler id ending in `.desktop` is
looked up first under `/usr/share/applications`, then under the user data
directory's `applications` subdirectory; if both reads fail the second
error is the outcome; a bare handler id is the executable directly with
the raw argument. -/
def openEntryResolution (env : Env) (de : Option DesktopEnvironment)
    (arg mime dflt : String) (mq : List String) : OpenOut :=
  if rustEndsWith dflt ".desktop" then
    let path1 := pathJoin "/usr/share/applications" dflt
    match parse_desktop_file env path1 with
    | .ok map => openWithMap env de arg mime dflt path1 map mq [path1]
    | .error _ =>
      let path2 := pathJoin (pathJoin env.dataDir "applications") dflt
      match parse_desktop_file env path2 with
      | .ok map => openWithMap env de arg mime dflt path2 map mq [path1, path2]
      | .error e => ⟨.DesktopFileParseError e, mq, [path1, path2], []⟩
  else ⟨.PromptExec arg de mime "" dflt [arg], mq, [], []⟩

/-- Default lookup of `open`: query the default handler for `mime`;
`Empty` terminates with `CouldntDetermineDefault`, any other failure with
`XdgQueryError`.  (The source wraps the success in an `Option` whose
`None` arm is unreachable; the early-return structure is modelled by
direct continuation.) -/
def openDefaultLookup (env : Env) (de : Option DesktopEnvironment)
    (arg mime : String) (mq : List String) : OpenOut :=
  match queryDefault de env mime with
  | .ok dflt => openEntryResolution env de arg mime dflt mq
  | .error .Empty => ⟨.CouldntDetermineDefault arg mime, mq, [], []⟩
  | .error err => ⟨.XdgQueryError arg err, mq, [], []⟩

/-- The `file://` special case of `open`: when the MIME type so far is
`x-scheme-handler/file`, re-query the MIME type of the URL's path
component and continue with the result (failure terminates with
`XdgQueryError`). -/
def openAfterMime (env : Env) (de : Option DesktopEnvironment)
    (arg urlPath mime0 : String) (mq : List String) : OpenOut :=
  if mime0 = "x-scheme-handler/file" then
    match queryMime de env urlPath with
    | .ok pathMime => openDefaultLookup env de arg pathMime (mq ++ [urlPath])
    | .error err => ⟨.XdgQueryError arg err, mq ++ [urlPath], [], []⟩
  else openDefaultLookup env de arg mime0 mq

/-- `fn open` of `src/main.rs` (named `openRes`; `open` is a Lean
keyword), instrumented with the query traces.  An argument parsing as a
URL synthesizes the MIME type `x-scheme-handler/<scheme>` with no MIME
query; otherwise the MIME type is queried on the raw argument (the URL
path defaulting to the empty string, as in the source). -/
def openRes (env : Env) (de : Option DesktopEnvironment) (arg : String) :
    OpenOut :=
  match env.urlParse arg with
  | some u => openAfterMime env de arg u.path ("x-scheme-handler/" ++ u.scheme) []
  | none =>
    match queryMime de env arg with
    | .ok m => openAfterMime env de arg "" m [arg]
    | .error err => ⟨.XdgQueryError arg err, [arg], [], []⟩

/-- The output-normalization rule as the spec words it, for comparison
with the four backend query functions: decode the bytes as UTF-8, failing
with `InvalidUtf8`; otherwise trim leading and trailing whitespace,
failing with `Empty` when the trimmed result is empty, and succeeding with
the trimmed string otherwise. -/
def specNormalize (bytes : List Nat) : Except XdgQueryError String :=
  match utf8Decode bytes with
  | none => .error .InvalidUtf8
  | some s => if rustTrim s = "" then .error .Empty else .ok (rustTrim s)

/-- Lines up to (exclusive) the first line whose trimmed form starts with
`[`: the tail of the `[Desktop Entry]` span. -/
def spanUntilGroup : List String → List String
  | [] => []
  | l :: rest =>
    if rustStartsWith (rustTrim l) "[" then [] else l :: spanUntilGroup rest

/-- Lines lying strictly between the first line trimming to
`[Desktop Entry]` and the next line whose trimmed form starts with `[`
(or end of file); empty when no line trims to the header. -/
def spanAfterHeader : List String → List String
  | [] => []
  | l :: rest =>
    if rustTrim l = "[Desktop Entry]" then spanUntilGroup rest
    else spanAfterHeader rest

/-- The value of the last line in `ls` that splits at `=` with trimmed key
`k` (trimmed), or `none` when no such line exists. -/
def lastKV : List String → String → Option String
  | [], _ => none
  | l :: rest, k =>
    match lastKV rest k with
    | some v => some v
    | none =>
      match splitOnceEq l with
      | some (a, b) => if rustTrim a = k then some (rustTrim b) else none
      | none => none

/-- A base environment in which every oracle fails or is empty; the
concrete environments of the witnesses override individual fields. -/
def nullEnv : Env :=
  { urlParse := fun _ => none
  , qtMimeOut := fun _ => []
  , qtDefaultOut := fun _ => []
  , xdgMimeOut := fun _ => []
  , xdgDefaultOut := fun _ => []
  , fs := fun _ => .error "no such file"
  , dataDir := "/home/user/.local/share" }

/-- Environment for C1: the MIME query classifies `prog.exe` as the
Windows-executable MIME type, and the default-handler query for that MIME
type produces empty output. -/
def c1Env : Env :=
  { nullEnv with
    xdgMimeOut := fun a =>
      if a = "prog.exe" then
        strBytes "application/vnd.microsoft.portable-executable\n"
      else [] }

/-- Environment for C2's counterexample: `file:///tmp/x` parses as a URL
with scheme `file`, the MIME query on its path answers `text/plain`, and
`text/plain` has default handler `vi`. -/
def c2cEnv : Env :=
  { nullEnv with
    urlParse := fun t =>
      if t = "file:///tmp/x" then some ⟨"file", "/tmp/x"⟩ else none
  , xdgMimeOut := fun a => if a = "/tmp/x" then strBytes "text/plain\n" else []
  , xdgDefaultOut := fun m => if m = "text/plain" then strBytes "vi\n" else [] }

/-- Environment for C2's witness: `https://example.com/` parses as a URL
with scheme `https`, whose synthesized MIME type has default handler
`firefox`. -/
def c2wEnv : Env :=
  { nullEnv with
    urlParse := fun t =>
      if t = "https://example.com/" then some ⟨"https", "/"⟩ else none
  , xdgDefaultOut := fun m =>
      if m = "x-scheme-handler/https" then strBytes "firefox\n" else [] }

/-- Environment for C4's witness: a plain file whose MIME type has a
`.desktop` default handler that exists in neither search directory. -/
def c4Env : Env :=
  { nullEnv with
    xdgMimeOut := fun a => if a = "notes.txt" then strBytes "text/plain\n" else []
  , xdgDefaultOut := fun m =>
      if m = "text/plain" then strBytes "ghost.desktop\n" else []
  , fs := fun p =>
      if p = "/usr/share/applications/ghost.desktop" then .error "first error"
      else .error "second error" }

/-- Environment for C7's witness: the located desktop entry's `Exec` value
has an unterminated quote. -/
def c7Env : Env :=
  { nullEnv with
    xdgMimeOut := fun a => if a = "notes.txt" then strBytes "text/plain\n" else []
  , xdgDefaultOut := fun m =>
      if m = "text/plain" then strBytes "bad.desktop\n" else []
  , fs := fun p =>
      if p = "/usr/share/applications/bad.desktop" then
        .ok "[Desktop Entry]\nExec=app \"unterminated\n"
      else .error "no such file" }

/-- Environment for C8's witness: the default handler for `text/plain` is
the bare command `vi`. -/
def c8Env : Env :=
  { nullEnv with
    xdgMimeOut := fun a => if a = "notes.txt" then strBytes "text/plain\n" else []
  , xdgDefaultOut := fun m => if m = "text/plain" then strBytes "vi\n" else [] }

/-- Environment for C3's witness: `file:///tmp/x` parses as a `file` URL
and the MIME query on `/tmp/x` answers `text/plain`. -/
def c3Env : Env :=
  { nullEnv with
    urlParse := fun t =>
      if t = "file:///tmp/x" then some ⟨"file", "/tmp/x"⟩ else none
  , xdgMimeOut := fun a => if a = "/tmp/x" then strBytes "text/plain\n" else [] }

theorem string_append_left_cancel (s t u : String) (h : s ++ t = s ++ u) :
    t = u := by
  have hd := congrArg String.data h
  simp only [String.data_append] at hd
  exact String.ext (List.append_cancel_left hd)

theorem scheme_mime_ne_file (s : String) (h : s ≠ "file") :
    ("x-scheme-handler/" ++ s) ≠ "x-scheme-handler/file" := by
  intro hc
  apply h
  apply string_append_left_cancel "x-scheme-handler/"
  rw [hc]
  rfl

theorem mapGet?_parse_entry (ls : List String) :
    ∀ (m : List (String × String)) (k : String),
      mapGet? (parse_desktop_lines ls .DesktopEntry m) k =
        match lastKV (spanUntilGroup ls) k with
        | some v => some v
        | none => mapGet? m k := by
  induction ls with
  | nil => intro m k; simp [parse_desktop_lines, spanUntilGroup, lastKV]
  | cons l rest ih =>
    intro m k
    by_cases hb : rustStartsWith (rustTrim l) "[" = true
    · simp [parse_desktop_lines, spanUntilGroup, hb, lastKV]
    · rcases hsp : splitOnceEq l with _ | ⟨a, b⟩
      · simp only [parse_desktop_lines, spanUntilGroup, hb, if_false, hsp,
          Bool.false_eq_true, if_neg, lastKV, ih]
        cases lastKV (spanUntilGroup rest) k <;> rfl
      · simp only [parse_desktop_lines, spanUntilGroup, hb, Bool.false_eq_true,
          if_neg, if_false, hsp, lastKV, ih, mapInsert, mapGet?]
        cases lastKV (spanUntilGroup rest) k with
        | none =>
          by_cases ha : rustTrim a = k <;> simp [ha]
        | some v => rfl

theorem mapGet?_parse_init (ls : List String) :
    ∀ (m : List (String × String)) (k : String),
      mapGet? (parse_desktop_lines ls .Init m) k =
        match lastKV (spanAfterHeader ls) k with
        | some v => some v
        | none => mapGet? m k := by
  induction ls with
  | nil => intro m k; simp [parse_desktop_lines, spanAfterHeader, lastKV]
  | cons l rest ih =>
    intro m k
    by_cases hh : rustTrim l = "[Desktop Entry]"
    · simp [parse_desktop_lines, spanAfterHeader, hh, mapGet?_parse_entry]
    · simp [parse_desktop_lines, spanAfterHeader, hh, ih]

theorem parse_init_no_header (ls : List String)
    (h : ∀ l ∈ ls, rustTrim l ≠ "[Desktop Entry]") :
    ∀ m, parse_desktop_lines ls .Init m = m := by
  induction ls with
  | nil => intro m; rfl
  | cons l rest ih =>
    intro m
    have h1 : rustTrim l ≠ "[Desktop Entry]" := h l (by simp)
    simp only [parse_desktop_lines, h1, if_neg, if_false]
    exact ih (fun x hx => h x (by simp [hx])) m

theorem openWithMap_mimeQueries (env : Env) (de : Option DesktopEnvironment)
    (arg mime dflt appfile : String) (map : List (String × String))
    (mq fsr : List String) :
    (openWithMap env de arg mime dflt appfile map mq fsr).mimeQueries = mq := by
  cases h : mapGet? map "Exec" with
  | none => simp [openWithMap, h]
  | some exec => cases h2 : args_from_exec_string exec arg <;>
      simp [openWithMap, h, h2]

theorem openEntryResolution_mimeQueries (env : Env)
    (de : Option DesktopEnvironment) (arg mime dflt : String)
    (mq : List String) :
    (openEntryResolution env de arg mime dflt mq).mimeQueries = mq := by
  by_cases he : rustEndsWith dflt ".desktop" = true
  · simp only [openEntryResolution, he, if_true]
    cases h1 : parse_desktop_file env (pathJoin "/usr/share/applications" dflt) with
    | ok map => simp [h1, openWithMap_mimeQueries]
    | error e1 =>
      cases h2 : parse_desktop_file env
          (pathJoin (pathJoin env.dataDir "applications") dflt) with
      | ok map => simp [h1, h2, openWithMap_mimeQueries]
      | error e2 => simp [h1, h2]
  · simp [openEntryResolution, he]

theorem openDefaultLookup_mimeQueries (env : Env)
    (de : Option DesktopEnvironment) (arg mime : String) (mq : List String) :
    (openDefaultLookup env de arg mime mq).mimeQueries = mq := by
  cases h : queryDefault de env mime with
  | ok dflt => simp [openDefaultLookup, h, openEntryResolution_mimeQueries]
  | error e => cases e <;> simp [openDefaultLookup, h]

/-- C1 counterexample: in an environment whose MIME query classifies
`prog.exe` as `application/vnd.microsoft.portable-executable` and whose
default-handler query for that MIME type produces empty output, the
orchestrator terminates with `CouldntDetermineDefault` — no fallback table
is consulted and no handler `wine` is resolved. -/
theorem c1_counterexample :
    (openRes c1Env none "prog.exe").status =
      .CouldntDetermineDefault "prog.exe"
        "application/vnd.microsoft.portable-executable" := by decide

/-- C1 (amended): when the default-handler query fails with `Empty`, the
orchestrator terminates immediately with the `NoDefaultFound` outcome
(`CouldntDetermineDefault(arg, mime)`) for every MIME type; no fallback
table exists. -/
theorem c1_empty_default_no_fallback (env : Env)
    (de : Option DesktopEnvironment) (arg mime : String)
    (hurl : env.urlParse arg = none)
    (hmime : queryMime de env arg = .ok mime)
    (hnf : mime ≠ "x-scheme-handler/file")
    (hdef : queryDefault de env mime = .error .Empty) :
    (openRes env de arg).status = .CouldntDetermineDefault arg mime := by
  simp [openRes, hurl, hmime, openAfterMime, hnf, openDefaultLookup, hdef]

/-- C1 witness: the amended statement at the concrete environment of the
counterexample. -/
theorem c1_witness :
    (openRes c1Env none "prog.exe").status =
      .CouldntDetermineDefault "prog.exe"
        "application/vnd.microsoft.portable-executable" :=
  c1_empty_default_no_fallback c1Env none "prog.exe"
    "application/vnd.microsoft.portable-executable"
    rfl rfl (by decide) rfl

/-- C2 counterexample: `file:///tmp/x` parses as a URL with scheme `file`,
yet the pipeline issues an external MIME query (on the URL's path) and
proceeds with that query's answer `text/plain`, not with
`x-scheme-handler/file`. -/
theorem c2_counterexample :
    openRes c2cEnv none "file:///tmp/x" =
      ⟨.PromptExec "file:///tmp/x" none "text/plain" "" "vi" ["file:///tmp/x"],
       ["/tmp/x"], [], []⟩ := by decide

/-- C2 (amended): for every resource reference whose text parses as a URL
with scheme `s ≠ "file"`, the pipeline proceeds to default lookup with the
MIME type exactly `x-scheme-handler/s` and never invokes the external MIME
query. -/
theorem c2_url_fast_path (env : Env) (de : Option DesktopEnvironment)
    (arg s p : String)
    (hurl : env.urlParse arg = some ⟨s, p⟩)
    (hs : s ≠ "file") :
    openRes env de arg =
      openDefaultLookup env de arg ("x-scheme-handler/" ++ s) []
    ∧ (openRes env de arg).mimeQueries = [] := by
  have hne := scheme_mime_ne_file s hs
  have h1 : openRes env de arg =
      openDefaultLookup env de arg ("x-scheme-handler/" ++ s) [] := by
    simp [openRes, hurl, openAfterMime, hne]
  exact ⟨h1, by rw [h1]; exact openDefaultLookup_mimeQueries env de arg _ []⟩

/-- C2 witness: the amended statement at a concrete `https` URL. -/
theorem c2_witness :
    openRes c2wEnv none "https://example.com/" =
      openDefaultLookup c2wEnv none "https://example.com/"
        ("x-scheme-handler/" ++ "https") []
    ∧ (openRes c2wEnv none "https://example.com/").mimeQueries = [] :=
  c2_url_fast_path c2wEnv none "https://example.com/" "https" "/"
    rfl (by decide)

/-- C3: for every argument parsing as a URL with scheme `file`, the
pipeline does not keep `x-scheme-handler/file`: it issues the MIME query
on the URL's path component, continues to default lookup with that
query's answer, and terminates with `XdgQueryError` when the query
fails. -/
theorem c3_file_url_requeries (env : Env) (de : Option DesktopEnvironment)
    (arg p : String)
    (hurl : env.urlParse arg = some ⟨"file", p⟩) :
    (∀ m, queryMime de env p = .ok m →
        openRes env de arg = openDefaultLookup env de arg m [p])
    ∧ (∀ e, queryMime de env p = .error e →
        openRes env de arg = ⟨.XdgQueryError arg e, [p], [], []⟩) := by
  have hfile : ("x-scheme-handler/" ++ "file" : String) =
      "x-scheme-handler/file" := rfl
  constructor
  · intro m hm
    simp [openRes, hurl, hfile, openAfterMime, hm]
  · intro e he
    simp [openRes, hurl, hfile, openAfterMime, he]

/-- C3 witness: the concrete `file:///tmp/x` whose path classifies as
`text/plain`. -/
theorem c3_witness :
    openRes c3Env none "file:///tmp/x" =
      openDefaultLookup c3Env none "file:///tmp/x" "text/plain" ["/tmp/x"] :=
  (c3_file_url_requeries c3Env none "file:///tmp/x" "/tmp/x" rfl).1
    "text/plain" rfl

/-- C4: for a `.desktop` handler id, the locator reads exactly the two
candidate paths `/usr/share/applications/<id>` and then
`<data-dir>/applications/<id>`, in this order; when both reads fail the
reported error is the second (per-user) one and the terminal outcome is
`DesktopFileParseError`, not `CouldntDetermineDefault` (and the function
is total, so the run does not crash). -/
theorem c4_locator_two_candidates (env : Env)
    (de : Option DesktopEnvironment) (arg mime dflt e1 e2 : String)
    (hurl : env.urlParse arg = none)
    (hmime : queryMime de env arg = .ok mime)
    (hnf : mime ≠ "x-scheme-handler/file")
    (hdef : queryDefault de env mime = .ok dflt)
    (hd : rustEndsWith dflt ".desktop" = true)
    (h1 : env.fs (pathJoin "/usr/share/applications" dflt) = .error e1)
    (h2 : env.fs (pathJoin (pathJoin env.dataDir "applications") dflt) =
      .error e2) :
    openRes env de arg =
      ⟨.DesktopFileParseError e2, [arg],
       [pathJoin "/usr/share/applications" dflt,
        pathJoin (pathJoin env.dataDir "applications") dflt], []⟩ := by
  simp [openRes, hurl, hmime, openAfterMime, hnf, openDefaultLookup, hdef,
        openEntryResolution, hd, parse_desktop_file, h1, h2]

/-- C4 witness: handler `ghost.desktop` present in neither directory. -/
theorem c4_witness :
    openRes c4Env none "notes.txt" =
      ⟨.DesktopFileParseError "second error", ["notes.txt"],
       [pathJoin "/usr/share/applications" "ghost.desktop",
        pathJoin (pathJoin c4Env.dataDir "applications") "ghost.desktop"],
       []⟩ :=
  c4_locator_two_candidates c4Env none "notes.txt" "text/plain"
    "ghost.desktop" "first error" "second error"
    rfl rfl (by decide) rfl (by decide) rfl rfl

/-- C5: for every text input, the desktop-entry parser's map answers
lookups exactly by the last `=`-splitting line (trimmed key and value)
among the lines lying strictly between the line trimming to
`[Desktop Entry]` and the next line whose trimmed form begins with `[`
(or end of file) — so keys outside that span are absent and a duplicated
key keeps its last value — and an input never containing the header line
yields an empty map. -/
theorem c5_parser_span (raw : String) :
    (∀ k, mapGet? (parse_desktop_content raw) k =
        lastKV (spanAfterHeader (rustLines raw)) k)
    ∧ ((∀ l ∈ rustLines raw, rustTrim l ≠ "[Desktop Entry]") →
        parse_desktop_content raw = []) := by
  constructor
  · intro k
    rw [parse_desktop_content, mapGet?_parse_init]
    cases hl : lastKV (spanAfterHeader (rustLines raw)) k <;> simp [mapGet?]
  · intro h
    exact parse_init_no_header (rustLines raw) h []

/-- C5 witness: a file with no `[Desktop Entry]` header parses to the
empty map, and lookups coincide with the span characterization. -/
theorem c5_witness :
    (mapGet? (parse_desktop_content "A=1\nB=2") "A" =
      lastKV (spanAfterHeader (rustLines "A=1\nB=2")) "A")
    ∧ parse_desktop_content "A=1\nB=2" = [] :=
  ⟨(c5_parser_span "A=1\nB=2").1 "A",
   (c5_parser_span "A=1\nB=2").2 (by decide)⟩

/-- C6: tokenizing `app "%f" --flag` with resource `/tmp/a b.txt` yields
executable `app` and arguments `["/tmp/a b.txt", "--flag"]`; in general,
whenever splitting succeeds with a first token and a rest, the result is
the first token as executable and the rest with every token that is
exactly `%U`, `%u` or `%f` replaced verbatim by the raw resource
reference and every other token passed through literally. -/
theorem c6_field_code_substitution :
    args_from_exec_string "app \"%f\" --flag" "/tmp/a b.txt" =
      some ("app", ["/tmp/a b.txt", "--flag"])
    ∧ ∀ exec arg e toks, shlexSplit exec = some (e :: toks) →
        args_from_exec_string exec arg =
          some (e, toks.map (fieldCodeSubst arg)) := by
  refine ⟨by decide, ?_⟩
  intro exec arg e toks h
  simp [args_from_exec_string, h]

/-- C6 witness: the general substitution statement at a concrete split. -/
theorem c6_witness :
    args_from_exec_string "ed %u" "R" =
      some ("ed", ["%u"].map (fieldCodeSubst "R")) :=
  c6_field_code_substitution.2 "ed %u" "R" "ed" ["%u"] (by decide)

/-- C7: the tokenizer yields `none` exactly when shell splitting fails
(e.g. on the unterminated quote of `app "unterminated`) or when the token
list is empty after splitting; and when the located desktop entry's
`Exec` value fails to tokenize, the orchestrator terminates with
`InvalidExecString` carrying the raw Exec string. -/
theorem c7_malformed_exec :
    (∀ exec arg, args_from_exec_string exec arg = none ↔
        (shlexSplit exec = none ∨ shlexSplit exec = some []))
    ∧ shlexSplit "app \"unterminated" = none
    ∧ ∀ (env : Env) (de : Option DesktopEnvironment)
        (arg mime dflt raw exec : String),
        env.urlParse arg = none →
        queryMime de env arg = .ok mime →
        mime ≠ "x-scheme-handler/file" →
        queryDefault de env mime = .ok dflt →
        rustEndsWith dflt ".desktop" = true →
        env.fs (pathJoin "/usr/share/applications" dflt) = .ok raw →
        mapGet? (parse_desktop_content raw) "Exec" = some exec →
        args_from_exec_string exec arg = none →
        (openRes env de arg).status = .InvalidExecString exec := by
  refine ⟨?_, by decide, ?_⟩
  · intro exec arg
    cases h : shlexSplit exec with
    | none => simp [args_from_exec_string, h]
    | some toks => cases toks <;> simp [args_from_exec_string, h]
  · intro env de arg mime dflt raw exec hurl hmime hnf hdef hd hfs hex htok
    simp [openRes, hurl, hmime, openAfterMime, hnf, openDefaultLookup, hdef,
          openEntryResolution, hd, parse_desktop_file, hfs, openWithMap,
          hex, htok]

/-- C7 witness: a desktop entry whose `Exec` value has an unterminated
quote terminates the pipeline with `InvalidExecString`. -/
theorem c7_witness :
    (openRes c7Env none "notes.txt").status =
      .InvalidExecString "app \"unterminated" :=
  c7_malformed_exec.2.2 c7Env none "notes.txt" "text/plain" "bad.desktop"
    "[Desktop Entry]\nExec=app \"unterminated\n" "app \"unterminated"
    rfl rfl (by decide) rfl (by decide) rfl (by decide) (by decide)

/-- C8: a handler id not ending in `.desktop` becomes the executable
directly, with the raw resource reference as its sole argument and no
tokenization; likewise, a located desktop map with no `Exec` key falls
back to the handler id as executable with the raw reference as sole
argument and no tokenization. -/
theorem c8_bare_handler :
    (∀ (env : Env) (de : Option DesktopEnvironment) (arg mime dflt : String),
      env.urlParse arg = none →
      queryMime de env arg = .ok mime →
      mime ≠ "x-scheme-handler/file" →
      queryDefault de env mime = .ok dflt →
      rustEndsWith dflt ".desktop" = false →
      openRes env de arg =
        ⟨.PromptExec arg de mime "" dflt [arg], [arg], [], []⟩)
    ∧ ∀ (env : Env) (de : Option DesktopEnvironment)
        (arg mime dflt appfile : String) (map : List (String × String))
        (mq fsr : List String),
        mapGet? map "Exec" = none →
        openWithMap env de arg mime dflt appfile map mq fsr =
          ⟨.PromptExec arg de mime appfile dflt [arg], mq, fsr, []⟩ := by
  constructor
  · intro env de arg mime dflt hurl hmime hnf hdef hd
    simp [openRes, hurl, hmime, openAfterMime, hnf, openDefaultLookup, hdef,
          openEntryResolution, hd]
  · intro env de arg mime dflt appfile map mq fsr hex
    simp [openWithMap, hex]

/-- C8 witness: the bare handler `vi` for `text/plain`. -/
theorem c8_witness :
    openRes c8Env none "notes.txt" =
      ⟨.PromptExec "notes.txt" none "text/plain" "" "vi" ["notes.txt"],
       ["notes.txt"], [], []⟩ :=
  c8_bare_handler.1 c8Env none "notes.txt" "text/plain" "vi"
    rfl rfl (by decide) rfl (by decide)

/-- C9: for both backends and both query operations, the result on the
subprocess's standard-output bytes is exactly the spec's normalization
rule: `InvalidUtf8` exactly when the bytes do not decode as UTF-8,
otherwise `Empty` exactly when the decoded string trims to empty,
otherwise success with the whitespace-trimmed string. -/
theorem c9_normalization (env : Env) (arg mime : String) :
    query_mime_xdg env arg = specNormalize (env.xdgMimeOut arg)
    ∧ gen_query_default env mime = specNormalize (env.xdgDefaultOut mime)
    ∧ qt_query_mime env arg = specNormalize (env.qtMimeOut arg)
    ∧ qt_query_default env mime = specNormalize (env.qtDefaultOut mime) := by
  refine ⟨?_, ?_, ?_, ?_⟩
  · cases h : utf8Decode (env.xdgMimeOut arg) <;>
      simp [query_mime_xdg, specNormalize, h]
  · cases h : utf8Decode (env.xdgDefaultOut mime) <;>
      simp [gen_query_default, specNormalize, h]
  · cases h : utf8Decode (env.qtMimeOut arg) <;>
      simp [qt_query_mime, specNormalize, h]
  · cases h : utf8Decode (env.qtDefaultOut mime) <;>
      simp [qt_query_default, specNormalize, h]

/-- C10: substitution never applies to the first token: when the first
token after splitting is exactly `%U`, `%u` or `%f`, it becomes the
executable unchanged, and only the remaining tokens undergo field-code
substitution. -/
theorem c10_first_token_unsubstituted (exec arg t : String)
    (rest : List String)
    (h : shlexSplit exec = some (t :: rest))
    (hf : t = "%U" ∨ t = "%u" ∨ t = "%f") :
    args_from_exec_string exec arg = some (t, rest.map (fieldCodeSubst arg)) := by
  simp [args_from_exec_string, h]

/-- C10 witness: `%f` as first token stays the executable, untouched by
the resource reference. -/
theorem c10_witness :
    args_from_exec_string "%f x" "RES" =
      some ("%f", ["x"].map (fieldCodeSubst "RES")) :=
  c10_first_token_unsubstituted "%f x" "RES" "%f" ["x"] (by decide)
    (by decide)
